import Mathlib

/-!
Shallow embedding of the repetition-detection engine of
`client/rep_logic.py` (the fitness-poster-feedback repository).

Conventions of the embedding:
* Python floats become `ℚ` (the claims under consideration are about ordering
  and equality in the control logic, not floating-point rounding).
* Python `dict.get(key, default)` on the feature frame becomes an
  `Option ℚ` field read with `Option.getD`.
* `time.time()` becomes an explicit `now : ℚ` argument of the step.
* The mutable `MultiRepState.limb_states` dict becomes a total function
  `String → SingleLimbState`; the source lazily inserts a default
  `SingleLimbState()` for every missing key before use, so a total map
  whose unset entries are that default is observationally the same.
* Python list `append` / `clear` become `++ [x]` / `[]`; `min`, `max` and
  `np.mean` on nonempty lists become `pyMin`, `pyMax`, `pyMean` below.
* The straight-line body of the per-limb state machine is split into named
  pieces (`enterFlexed`, `appendSamples`, `closeRep`, ...), each labelled
  with the source lines it embeds.
-/

namespace RepLogic

/-- Python `min` over a list (only ever applied to nonempty lists in the
source; the `[]` case is irrelevant there). -/
def pyMin : List ℚ → ℚ
  | [] => 0
  | x :: xs => xs.foldl min x

/-- Python `max` over a list. -/
def pyMax : List ℚ → ℚ
  | [] => 0
  | x :: xs => xs.foldl max x

/-- `np.mean` over a list of samples. -/
def pyMean (l : List ℚ) : ℚ := l.sum / l.length

/-- Python `x or y` for `x : Optional[float]`: `None` and `0.0` are both
falsy, so both yield `y`. Used for `state.rep_start_time or end_time`
(rep_logic.py line 243). -/
def pyOrFloat (x : Option ℚ) (y : ℚ) : ℚ :=
  match x with
  | some t => if t = 0 then y else t
  | none => y

/-- `SingleLimbState` (rep_logic.py lines 9-21). The default field values
are the dataclass defaults, i.e. the state of a freshly created track. -/
structure SingleLimbState where
  state : String := "EXTENDED"
  rep_id : ℕ := 0
  rep_start_time : Option ℚ := none
  hip_positions : List ℚ := []
  knee_angles : List ℚ := []
  elbow_angles : List ℚ := []
  torso_devs : List ℚ := []
  confidences : List ℚ := []
  last_rep_end_time : Option ℚ := none
  deriving Repr, DecidableEq

/-- `MultiRepState` (rep_logic.py lines 24-32): one `SingleLimbState` per
logical limb, keyed by `"global"`, `"left"`, `"right"`. -/
structure MultiRepState where
  limb_states : String → SingleLimbState

/-- A fresh `MultiRepState()` after the lazy-creation loop
(rep_logic.py lines 144-146) has filled in default `SingleLimbState()`
entries: every key maps to the dataclass default. -/
def initialMultiRepState : MultiRepState := ⟨fun _ => {}⟩

/-- One entry of the per-exercise configuration table
(rep_logic.py lines 36-101). -/
structure ExerciseConfig where
  limbs : List String
  primary_joint : String
  flexed_threshold : ℚ
  extended_threshold : ℚ
  min_rep_duration : ℚ
  min_rest_time : ℚ
  use_limb_delta : Bool
  limb_activation_delta : ℚ
  deriving Repr, DecidableEq

/-- `EXERCISE_CONFIG` (rep_logic.py lines 36-90). -/
def EXERCISE_CONFIG : List (String × ExerciseConfig) :=
  [ ("squat",
     { limbs := ["global"], primary_joint := "knee",
       flexed_threshold := 35, extended_threshold := 15,
       min_rep_duration := 1/5, min_rest_time := 2/25,
       use_limb_delta := false, limb_activation_delta := 0 }),
    ("pushup",
     { limbs := ["global"], primary_joint := "elbow",
       flexed_threshold := 40, extended_threshold := 20,
       min_rep_duration := 9/50, min_rest_time := 2/25,
       use_limb_delta := false, limb_activation_delta := 0 }),
    ("bicep_curl",
     { limbs := ["global"], primary_joint := "elbow",
       flexed_threshold := 90, extended_threshold := 20,
       min_rep_duration := 3/20, min_rest_time := 3/50,
       use_limb_delta := false, limb_activation_delta := 0 }),
    ("lunge",
     { limbs := ["global"], primary_joint := "knee",
       flexed_threshold := 45, extended_threshold := 20,
       min_rep_duration := 11/50, min_rest_time := 1/10,
       use_limb_delta := false, limb_activation_delta := 0 }),
    ("mountain_climber",
     { limbs := ["left", "right"], primary_joint := "knee",
       flexed_threshold := 40, extended_threshold := 20,
       min_rep_duration := 3/20, min_rest_time := 3/50,
       use_limb_delta := true, limb_activation_delta := 15 }) ]

/-- `DEFAULT_CONFIG` (rep_logic.py lines 92-101). -/
def DEFAULT_CONFIG : ExerciseConfig :=
  { limbs := ["global"], primary_joint := "knee",
    flexed_threshold := 35, extended_threshold := 15,
    min_rep_duration := 3/10, min_rest_time := 1/5,
    use_limb_delta := false, limb_activation_delta := 0 }

/-- `get_exercise_config` (rep_logic.py lines 104-107). Python's
`if exercise_name and exercise_name in EXERCISE_CONFIG` treats both `None`
and the empty string as falsy; the empty string is not a registry key, so
the explicit `n ≠ ""` test mirrors the truthiness check faithfully. -/
def get_exercise_config (exercise_name : Option String) : ExerciseConfig :=
  match exercise_name with
  | some n =>
      if n ≠ "" then
        match EXERCISE_CONFIG.lookup n with
        | some cfg => cfg
        | none => DEFAULT_CONFIG
      else DEFAULT_CONFIG
  | none => DEFAULT_CONFIG

/-- The feature frame passed to `update_multi_rep_state`: the keys the
function reads (rep_logic.py lines 149-157). A `none` field models a key
missing from the Python dict; `Option.getD` supplies the same defaults as
`features.get(key, default)`. -/
structure Features where
  left_knee_angle_frame : Option ℚ := none
  right_knee_angle_frame : Option ℚ := none
  left_elbow_angle_frame : Option ℚ := none
  right_elbow_angle_frame : Option ℚ := none
  knee_min_angle_frame : Option ℚ := none
  elbow_min_angle_frame : Option ℚ := none
  torso_dev_frame : Option ℚ := none
  center_hip_y : Option ℚ := none
  deriving Repr, DecidableEq

/-- The completed-rep summary dict (rep_logic.py lines 267-279). -/
structure RepSummary where
  rep_id : ℕ
  limb_id : String
  duration_s : ℚ
  hip_vertical_range : ℚ
  knee_min_angle : ℚ
  elbow_min_angle : ℚ
  torso_max_lean_deg : ℚ
  left_right_asymmetry : ℚ
  movement_smoothness : ℚ
  avg_confidence : ℚ
  exercise_hint : Option String
  deriving Repr, DecidableEq

/-- `get_limb_joint_flex` (rep_logic.py lines 168-182), returning the pair
(joint angle, flex amount) for a limb, after the per-frame extraction of
lines 149-163 (missing feature keys default to 180° angles). -/
def get_limb_joint_flex (primary_joint : String) (f : Features) (limb : String) : ℚ × ℚ :=
  let left_knee_angle := f.left_knee_angle_frame.getD 180
  let right_knee_angle := f.right_knee_angle_frame.getD 180
  let left_elbow_angle := f.left_elbow_angle_frame.getD 180
  let right_elbow_angle := f.right_elbow_angle_frame.getD 180
  let knee_min_angle := f.knee_min_angle_frame.getD 180
  let elbow_min_angle := f.elbow_min_angle_frame.getD 180
  let left_knee_flex := 180 - left_knee_angle
  let right_knee_flex := 180 - right_knee_angle
  let left_elbow_flex := 180 - left_elbow_angle
  let right_elbow_flex := 180 - right_elbow_angle
  if primary_joint = "knee" then
    if limb = "left" then (left_knee_angle, left_knee_flex)
    else if limb = "right" then (right_knee_angle, right_knee_flex)
    else (knee_min_angle, max left_knee_flex right_knee_flex)
  else
    if limb = "left" then (left_elbow_angle, left_elbow_flex)
    else if limb = "right" then (right_elbow_angle, right_elbow_flex)
    else (elbow_min_angle, max left_elbow_flex right_elbow_flex)

/-- The limb-activation gating block (rep_logic.py lines 196-207). The
source computes `other_flex` and then reaches `pass` in both the gated and
the ungated case: the inner `if flex_amount < other_flex + delta:` has an
empty body ("we just don't boost flex_amount here"), so `flex_amount` is
returned unchanged on every path. -/
def gatedFlexAmount (cfg : ExerciseConfig) (f : Features) (limb_id : String)
    (flex_amount : ℚ) : ℚ :=
  if cfg.use_limb_delta ∧ (limb_id = "left" ∨ limb_id = "right") then
    let other_flex :=
      if limb_id = "left" then (get_limb_joint_flex cfg.primary_joint f "right").2
      else (get_limb_joint_flex cfg.primary_joint f "left").2
    if flex_amount < other_flex + cfg.limb_activation_delta then flex_amount
    else flex_amount
  else flex_amount

/-- Cooldown test (rep_logic.py lines 214-218): in EXTENDED, motions are
ignored while `now - last_rep_end_time < min_rest_time`. -/
def cooldownActive (cfg : ExerciseConfig) (now : ℚ) (state : SingleLimbState) : Bool :=
  match state.last_rep_end_time with
  | some t => decide (now - t < cfg.min_rest_time)
  | none => false

/-- EXTENDED → FLEXED transition effect (rep_logic.py lines 221-229):
record the start time and seed each accumulator with the current sample. -/
def enterFlexed (f : Features) (avg_confidence : ℚ) (now : ℚ)
    (state : SingleLimbState) : SingleLimbState :=
  { state with
      state := "FLEXED"
      rep_start_time := some now
      hip_positions := [f.center_hip_y.getD 0]
      knee_angles := [f.knee_min_angle_frame.getD 180]
      elbow_angles := [f.elbow_min_angle_frame.getD 180]
      torso_devs := [f.torso_dev_frame.getD 0]
      confidences := [avg_confidence] }

/-- Per-frame accumulation while FLEXED (rep_logic.py lines 232-237),
performed before the completion check. -/
def appendSamples (f : Features) (avg_confidence : ℚ)
    (state : SingleLimbState) : SingleLimbState :=
  { state with
      hip_positions := state.hip_positions ++ [f.center_hip_y.getD 0]
      knee_angles := state.knee_angles ++ [f.knee_min_angle_frame.getD 180]
      elbow_angles := state.elbow_angles ++ [f.elbow_min_angle_frame.getD 180]
      torso_devs := state.torso_devs ++ [f.torso_dev_frame.getD 0]
      confidences := state.confidences ++ [avg_confidence] }

/-- Reset after a too-short cycle (rep_logic.py lines 247-256): back to
EXTENDED, accumulators and start time cleared, cooldown started, and the
rep counter left untouched. -/
def discardReset (now : ℚ) (state : SingleLimbState) : SingleLimbState :=
  { state with
      state := "EXTENDED"
      rep_start_time := none
      hip_positions := []
      knee_angles := []
      elbow_angles := []
      torso_devs := []
      confidences := []
      last_rep_end_time := some now }

/-- The summary dict built for a counted rep (rep_logic.py lines 258-279),
from the (already appended) accumulators. -/
def mkRepSummary (exercise_hint : Option String) (limb_id : String)
    (duration : ℚ) (state : SingleLimbState) : RepSummary :=
  { rep_id := state.rep_id + 1
    limb_id := limb_id
    duration_s := duration
    hip_vertical_range :=
      if state.hip_positions ≠ [] then
        pyMax state.hip_positions - pyMin state.hip_positions
      else 0
    knee_min_angle :=
      if state.knee_angles ≠ [] then pyMin state.knee_angles else 180
    elbow_min_angle :=
      if state.elbow_angles ≠ [] then pyMin state.elbow_angles else 180
    torso_max_lean_deg :=
      if state.torso_devs ≠ [] then pyMax state.torso_devs else 0
    left_right_asymmetry := 0
    movement_smoothness := 4/5
    avg_confidence :=
      if state.confidences ≠ [] then pyMean state.confidences else 0
    exercise_hint := exercise_hint }

/-- State reset after a counted rep (rep_logic.py lines 259, 281-287):
increment `rep_id`, start the cooldown, clear accumulators and start time. -/
def countReset (now : ℚ) (state : SingleLimbState) : SingleLimbState :=
  { state with
      state := "EXTENDED"
      rep_id := state.rep_id + 1
      rep_start_time := none
      hip_positions := []
      knee_angles := []
      elbow_angles := []
      torso_devs := []
      confidences := []
      last_rep_end_time := some now }

/-- FLEXED → EXTENDED completion logic (rep_logic.py lines 240-289),
applied to the state with the current frame's samples already appended. -/
def closeRep (cfg : ExerciseConfig) (exercise_hint : Option String)
    (limb_id : String) (now : ℚ) (state : SingleLimbState) :
    SingleLimbState × Option RepSummary :=
  let end_time := now
  let start_time := pyOrFloat state.rep_start_time end_time
  let duration := end_time - start_time
  if duration < cfg.min_rep_duration then
    (discardReset end_time state, none)
  else
    (countReset end_time state, some (mkRepSummary exercise_hint limb_id duration state))

/-- One iteration of the per-limb loop of `update_multi_rep_state`
(rep_logic.py lines 189-289): the state machine for a single track.
Returns the updated track state and the summary emitted for it, if any. -/
def stepLimb (cfg : ExerciseConfig) (f : Features) (avg_confidence : ℚ)
    (now : ℚ) (exercise_hint : Option String) (limb_id : String)
    (state : SingleLimbState) : SingleLimbState × Option RepSummary :=
  let flex_amount :=
    gatedFlexAmount cfg f limb_id (get_limb_joint_flex cfg.primary_joint f limb_id).2
  if state.state = "EXTENDED" then
    if cooldownActive cfg now state then (state, none)
    else if flex_amount > cfg.flexed_threshold then
      (enterFlexed f avg_confidence now state, none)
    else (state, none)
  else if state.state = "FLEXED" then
    let state := appendSamples f avg_confidence state
    if flex_amount < cfg.extended_threshold then
      closeRep cfg exercise_hint limb_id now state
    else (state, none)
  else (state, none)

/-- Write one track back into the multi-state (the effect of mutating
`multi_state.limb_states[limb_id]` in place). -/
def setLimb (ms : MultiRepState) (limb_id : String) (s : SingleLimbState) :
    MultiRepState :=
  ⟨fun l => if l = limb_id then s else ms.limb_states l⟩

/-- The per-limb loop of `update_multi_rep_state` (rep_logic.py
lines 189-291), processing the configured limbs in declaration order and
collecting completed-rep summaries in that order. -/
def runLimbs (cfg : ExerciseConfig) (f : Features) (avg_confidence : ℚ)
    (now : ℚ) (exercise_hint : Option String) :
    List String → MultiRepState → MultiRepState × List RepSummary
  | [], ms => (ms, [])
  | limb_id :: rest, ms =>
      let r := stepLimb cfg f avg_confidence now exercise_hint limb_id
        (ms.limb_states limb_id)
      let next := runLimbs cfg f avg_confidence now exercise_hint rest
        (setLimb ms limb_id r.1)
      (next.1, r.2.toList ++ next.2)

/-- `update_multi_rep_state` with the configuration passed explicitly
(the body of rep_logic.py lines 131-291 after the `get_exercise_config`
lookup). -/
def update_with_config (cfg : ExerciseConfig) (ms : MultiRepState)
    (f : Features) (avg_confidence : ℚ) (exercise_hint : Option String)
    (now : ℚ) : MultiRepState × List RepSummary :=
  runLimbs cfg f avg_confidence now exercise_hint cfg.limbs ms

/-- `update_multi_rep_state` (rep_logic.py lines 114-291). The mutation of
`multi_state` and the returned `completed_reps` list are both made explicit
in the result pair. -/
def update_multi_rep_state (ms : MultiRepState) (f : Features)
    (avg_confidence : ℚ) (exercise_hint : Option String) (now : ℚ) :
    MultiRepState × List RepSummary :=
  update_with_config (get_exercise_config exercise_hint) ms f avg_confidence
    exercise_hint now

/-! ### Specification variant for the duration edge case

The spec's error-handling section asks that a negative duration (clock
going backward) be "clamped to zero" before the completion logic proceeds.
The following definitions are that variant, written from the spec's words
for comparison with the code above; they differ from `closeRep` and its
callers only in the `max 0` on the duration. -/

/-- Spec-described variant of `closeRep` that clamps a negative cycle
duration to zero before the `min_rep_duration` comparison. -/
def closeRepClamped (cfg : ExerciseConfig) (exercise_hint : Option String)
    (limb_id : String) (now : ℚ) (state : SingleLimbState) :
    SingleLimbState × Option RepSummary :=
  let end_time := now
  let start_time := pyOrFloat state.rep_start_time end_time
  let duration := max 0 (end_time - start_time)
  if duration < cfg.min_rep_duration then
    (discardReset end_time state, none)
  else
    (countReset end_time state, some (mkRepSummary exercise_hint limb_id duration state))

/-- `stepLimb` with the duration-clamping completion step. -/
def stepLimbClamped (cfg : ExerciseConfig) (f : Features) (avg_confidence : ℚ)
    (now : ℚ) (exercise_hint : Option String) (limb_id : String)
    (state : SingleLimbState) : SingleLimbState × Option RepSummary :=
  let flex_amount :=
    gatedFlexAmount cfg f limb_id (get_limb_joint_flex cfg.primary_joint f limb_id).2
  if state.state = "EXTENDED" then
    if cooldownActive cfg now state then (state, none)
    else if flex_amount > cfg.flexed_threshold then
      (enterFlexed f avg_confidence now state, none)
    else (state, none)
  else if state.state = "FLEXED" then
    let state := appendSamples f avg_confidence state
    if flex_amount < cfg.extended_threshold then
      closeRepClamped cfg exercise_hint limb_id now state
    else (state, none)
  else (state, none)

/-- The per-limb loop over `stepLimbClamped`. -/
def runLimbsClamped (cfg : ExerciseConfig) (f : Features) (avg_confidence : ℚ)
    (now : ℚ) (exercise_hint : Option String) :
    List String → MultiRepState → MultiRepState × List RepSummary
  | [], ms => (ms, [])
  | limb_id :: rest, ms =>
      let r := stepLimbClamped cfg f avg_confidence now exercise_hint limb_id
        (ms.limb_states limb_id)
      let next := runLimbsClamped cfg f avg_confidence now exercise_hint rest
        (setLimb ms limb_id r.1)
      (next.1, r.2.toList ++ next.2)

/-- `update_multi_rep_state` with the duration-clamping completion step. -/
def update_clamped (ms : MultiRepState) (f : Features)
    (avg_confidence : ℚ) (exercise_hint : Option String) (now : ℚ) :
    MultiRepState × List RepSummary :=
  let cfg := get_exercise_config exercise_hint
  runLimbsClamped cfg f avg_confidence now exercise_hint cfg.limbs ms

/-! ### Call traces -/

/-- One call to `update_multi_rep_state`: the feature frame, the average
confidence, the exercise hint and the frame timestamp. -/
structure FrameInput where
  features : Features
  avg_confidence : ℚ
  exercise_hint : Option String
  now : ℚ
  deriving Repr, DecidableEq

/-- The hip-height sample a frame contributes (rep_logic.py line 157). -/
def hipOf (i : FrameInput) : ℚ := i.features.center_hip_y.getD 0

/-- A sequence of calls to `update_multi_rep_state`, threading the mutable
state and pairing each emitted summary with the timestamp of the call that
emitted it (which is also the `last_rep_end_time` it records). -/
def runTrace : List FrameInput → MultiRepState → MultiRepState × List (ℚ × RepSummary)
  | [], ms => (ms, [])
  | i :: rest, ms =>
      let r := update_multi_rep_state ms i.features i.avg_confidence i.exercise_hint i.now
      let next := runTrace rest r.1
      (next.1, (r.2.map (fun s => (i.now, s))) ++ next.2)

/-- The effect of one `update_multi_rep_state` call on the track `l`:
`stepLimb` when `l` is configured for that call's exercise, the identity
otherwise. -/
def stepLimbState (l : String) (i : FrameInput) (s : SingleLimbState) : SingleLimbState :=
  let cfg := get_exercise_config i.exercise_hint
  if l ∈ cfg.limbs then
    (stepLimb cfg i.features i.avg_confidence i.now i.exercise_hint l s).1
  else s

/-- The summary (with its emission time) one call contributes on track `l`. -/
def limbEmit (l : String) (i : FrameInput) (s : SingleLimbState) :
    Option (ℚ × RepSummary) :=
  let cfg := get_exercise_config i.exercise_hint
  if l ∈ cfg.limbs then
    ((stepLimb cfg i.features i.avg_confidence i.now i.exercise_hint l s).2).map
      (fun r => (i.now, r))
  else none

/-- The per-track projection of a call trace: the summaries emitted on
track `l`, in order, with their emission times. -/
def limbTrace (l : String) : List FrameInput → SingleLimbState → List (ℚ × RepSummary)
  | [], _ => []
  | i :: rest, s => (limbEmit l i s).toList ++ limbTrace l rest (stepLimbState l i s)

/-- The state of track `l` after a sequence of calls. -/
def limbStateAfter (l : String) (s : SingleLimbState) (inputs : List FrameInput) :
    SingleLimbState :=
  inputs.foldl (fun s i => stepLimbState l i s) s

/-- Facts shared by every configuration the registry (or the default) can
return: positive debounce parameters, an ordered threshold pair and
duplicate-free track lists. -/
def GoodConfig (cfg : ExerciseConfig) : Prop :=
  cfg.limbs.Nodup ∧ 0 < cfg.min_rep_duration ∧ 0 < cfg.min_rest_time ∧
    cfg.extended_threshold < cfg.flexed_threshold

/-- The invariant behind the cooldown separation argument: the last
recorded rep end is no earlier than the last emitted summary, and while
FLEXED the next possible emission time (`lb`, a lower bound of all future
timestamps) already clears the cooldown window after the last emission. -/
def RestInv (d : ℚ) (lastEmit : Option ℚ) (lb : ℚ) (s : SingleLimbState) : Prop :=
  (∀ e, lastEmit = some e → ∃ t, s.last_rep_end_time = some t ∧ e ≤ t) ∧
  (s.state = "FLEXED" → ∀ e, lastEmit = some e → e + d ≤ lb)

/-- The accumulator invariant of the spec: a track in EXTENDED phase holds
no samples. -/
def ClearedWhenExtended (s : SingleLimbState) : Prop :=
  s.state = "EXTENDED" →
    s.hip_positions = [] ∧ s.knee_angles = [] ∧ s.elbow_angles = [] ∧
    s.torso_devs = [] ∧ s.confidences = []

/-! ### Concrete frames used by witnesses and counterexamples -/

/-- A frame with both knees bent to 130° (flex 50) — for the
mountain-climber gating scenario. -/
def fBothKnees : Features :=
  { left_knee_angle_frame := some 130, right_knee_angle_frame := some 130 }

/-- A "bottom of the squat" frame: knee 140° (flex 40), elbow reading 90°,
hip height 10. -/
def fDown : Features :=
  { left_knee_angle_frame := some 140, right_knee_angle_frame := some 140,
    knee_min_angle_frame := some 140, elbow_min_angle_frame := some 90,
    center_hip_y := some 10 }

/-- A "standing" frame: knee 170° (flex 10), elbow reading 95°, hip
height 3. -/
def fUp : Features :=
  { left_knee_angle_frame := some 170, right_knee_angle_frame := some 170,
    knee_min_angle_frame := some 170, elbow_min_angle_frame := some 95,
    center_hip_y := some 3 }

/-- Two full squat cycles: down at t=10, up at t=11, down at t=12,
up at t=13, all with the squat configuration. -/
def squatTrace : List FrameInput :=
  [ { features := fDown, avg_confidence := 1, exercise_hint := some "squat", now := 10 },
    { features := fUp, avg_confidence := 1, exercise_hint := some "squat", now := 11 },
    { features := fDown, avg_confidence := 1, exercise_hint := some "squat", now := 12 },
    { features := fUp, avg_confidence := 1, exercise_hint := some "squat", now := 13 } ]

/-- The summary the second call of `squatTrace` emits (used to
instantiate membership hypotheses at a concrete summary). -/
def squatRep : RepSummary where
  rep_id := 1
  limb_id := "global"
  duration_s := 1
  hip_vertical_range := 7
  knee_min_angle := 140
  elbow_min_angle := 90
  torso_max_lean_deg := 0
  left_right_asymmetry := 0
  movement_smoothness := 4/5
  avg_confidence := 1
  exercise_hint := some "squat"

/-- One full squat cycle: down at t=10, up at t=11. -/
def squatCycle : List FrameInput :=
  [ { features := fDown, avg_confidence := 1, exercise_hint := some "squat", now := 10 },
    { features := fUp, avg_confidence := 1, exercise_hint := some "squat", now := 11 } ]

/-- A FLEXED track state mid-cycle, used to instantiate the per-track
transition theorems: one sample already accumulated, rep started at 10. -/
def flexedMidCycle : SingleLimbState :=
  { state := "FLEXED", rep_id := 3, rep_start_time := some 10,
    hip_positions := [10], knee_angles := [140], elbow_angles := [90],
    torso_devs := [0], confidences := [1], last_rep_end_time := some 9 }

end RepLogic

/-! ## Theorems -/

namespace RepLogic

theorem gatedFlexAmount_eq (cfg : ExerciseConfig) (f : Features)
    (limb_id : String) (x : ℚ) : gatedFlexAmount cfg f limb_id x = x := by
  simp [gatedFlexAmount]

theorem goodConfig_default : GoodConfig DEFAULT_CONFIG := by
  refine ⟨by simp [DEFAULT_CONFIG], ?_, ?_, ?_⟩ <;> norm_num [DEFAULT_CONFIG]

theorem goodConfig_lookup (n : String) (cfg : ExerciseConfig)
    (h : EXERCISE_CONFIG.lookup n = some cfg) : GoodConfig cfg := by
  simp only [EXERCISE_CONFIG, List.lookup] at h
  repeat' split at h
  all_goals first
    | exact Option.noConfusion h
    | (injection h with h
       subst h
       refine ⟨by simp, ?_, ?_, ?_⟩ <;> norm_num)

theorem goodConfig_get (hint : Option String) :
    GoodConfig (get_exercise_config hint) := by
  rcases hint with _ | n
  · exact goodConfig_default
  · simp only [get_exercise_config]
    split
    · cases hl : EXERCISE_CONFIG.lookup n with
      | none => exact goodConfig_default
      | some cfg => exact goodConfig_lookup n cfg hl
    · exact goodConfig_default

end RepLogic

namespace RepLogic

theorem cfg_squat :
    get_exercise_config (some "squat") =
      { limbs := ["global"], primary_joint := "knee",
        flexed_threshold := 35, extended_threshold := 15,
        min_rep_duration := 1/5, min_rest_time := 2/25,
        use_limb_delta := false, limb_activation_delta := 0 } := by
  simp [get_exercise_config, EXERCISE_CONFIG, List.lookup]

theorem cfg_mountain_climber :
    get_exercise_config (some "mountain_climber") =
      { limbs := ["left", "right"], primary_joint := "knee",
        flexed_threshold := 40, extended_threshold := 20,
        min_rep_duration := 3/20, min_rest_time := 3/50,
        use_limb_delta := true, limb_activation_delta := 15 } := by
  simp [get_exercise_config, EXERCISE_CONFIG, List.lookup]

/-- C10: for every exercise identifier not present in the registry
(including `None`), `get_exercise_config` returns the default configuration
and does not raise. (The embedding is a total pure function, so the
absence of exceptions and side effects is structural; the content proved
here is the fallback behaviour.) -/
theorem C10_unknown_exercise_default :
    (∀ n : String, EXERCISE_CONFIG.lookup n = none →
      get_exercise_config (some n) = DEFAULT_CONFIG) ∧
    get_exercise_config none = DEFAULT_CONFIG := by
  refine ⟨?_, rfl⟩
  intro n h
  simp only [get_exercise_config]
  split
  · rw [h]
  · rfl

/-- Witness for C10 at the concrete unknown identifier "yoga". -/
theorem C10_unknown_exercise_default_witness :
    get_exercise_config (some "yoga") = DEFAULT_CONFIG ∧
    get_exercise_config none = DEFAULT_CONFIG :=
  ⟨C10_unknown_exercise_default.1 "yoga" (by decide),
   C10_unknown_exercise_default.2⟩

theorem stepLimb_flag (cfg : ExerciseConfig) (b₁ b₂ : Bool) (f : Features)
    (a now : ℚ) (hint : Option String) (l : String) (s : SingleLimbState) :
    stepLimb { cfg with use_limb_delta := b₁ } f a now hint l s =
    stepLimb { cfg with use_limb_delta := b₂ } f a now hint l s := by
  simp only [stepLimb, gatedFlexAmount_eq]
  rfl

theorem runLimbs_congr (cfg₁ cfg₂ : ExerciseConfig) (f : Features) (a now : ℚ)
    (hint : Option String)
    (hstep : ∀ l s, stepLimb cfg₁ f a now hint l s = stepLimb cfg₂ f a now hint l s) :
    ∀ (ls : List String) (ms : MultiRepState),
      runLimbs cfg₁ f a now hint ls ms = runLimbs cfg₂ f a now hint ls ms := by
  intro ls
  induction ls with
  | nil => intro ms; rfl
  | cons l rest ih => intro ms; simp only [runLimbs, hstep, ih]

/-- C2: the returned summaries and the post-call state of the update are
identical whether the configuration's `use_limb_delta` flag is true or
false, all other fields equal — the gating comparison changes no track
state and suppresses no transition. (`update_with_config` is the body of
`update_multi_rep_state` with the looked-up configuration explicit, which
is what lets the flag be toggled with everything else fixed.) -/
theorem C2_use_limb_delta_no_effect (cfg : ExerciseConfig) (ms : MultiRepState)
    (f : Features) (a : ℚ) (hint : Option String) (now : ℚ) :
    update_with_config { cfg with use_limb_delta := true } ms f a hint now =
    update_with_config { cfg with use_limb_delta := false } ms f a hint now := by
  unfold update_with_config
  exact runLimbs_congr _ _ f a now hint
    (stepLimb_flag cfg true false f a now hint) cfg.limbs ms

/-- C1: the claim (and the spec, and the source's own docstring and the
comments in rep_logic.py lines 193-207) say that with limb gating enabled
and the two tracks' flex amounts within the gating delta of each other,
neither track starts a rep. On a frame with both knees at 130° — flex 50
on each side, a difference of 0, below the gating delta 15 of the
mountain-climber configuration, and above its flexed threshold 40 — a
call to `update_multi_rep_state` moves BOTH tracks from EXTENDED to
FLEXED: the gating block ends in `pass` and suppresses nothing. -/
theorem C1_gating_inoperative :
    (get_exercise_config (some "mountain_climber")).use_limb_delta = true ∧
    (get_limb_joint_flex
      (get_exercise_config (some "mountain_climber")).primary_joint fBothKnees "left").2 = 50 ∧
    (get_limb_joint_flex
      (get_exercise_config (some "mountain_climber")).primary_joint fBothKnees "right").2 = 50 ∧
    (initialMultiRepState.limb_states "left").state = "EXTENDED" ∧
    (initialMultiRepState.limb_states "right").state = "EXTENDED" ∧
    (50 : ℚ) - 50 < (get_exercise_config (some "mountain_climber")).limb_activation_delta ∧
    (50 : ℚ) > (get_exercise_config (some "mountain_climber")).flexed_threshold ∧
    ((update_multi_rep_state initialMultiRepState fBothKnees 1
        (some "mountain_climber") 20).1.limb_states "left").state = "FLEXED" ∧
    ((update_multi_rep_state initialMultiRepState fBothKnees 1
        (some "mountain_climber") 20).1.limb_states "right").state = "FLEXED" := by
  refine ⟨?_, ?_, ?_, rfl, rfl, ?_, ?_, ?_, ?_⟩ <;>
    (simp only [update_multi_rep_state, update_with_config, get_exercise_config,
      EXERCISE_CONFIG, runLimbs, stepLimb, setLimb, initialMultiRepState,
      gatedFlexAmount, get_limb_joint_flex, cooldownActive, enterFlexed,
      appendSamples, closeRep, discardReset, countReset, mkRepSummary,
      pyOrFloat, pyMin, pyMax, pyMean, List.lookup, DEFAULT_CONFIG, Option.getD,
      ne_eq, String.reduceEq, String.reduceBEq, not_false_eq_true,
      not_true_eq_false, reduceIte, reduceCtorEq, Option.some.injEq,
      ite_true, ite_false, fBothKnees, decide_eq_true_eq]
     try norm_num)

/-- C5: a FLEXED→EXTENDED transition whose flex-extend cycle is shorter
than `min_rep_duration` does not increment the track's `rep_id`, emits no
summary, clears all five accumulators and `rep_start_time`, returns the
track to EXTENDED, and still sets `last_rep_end_time` to the current time
so the cooldown window starts. `stepLimb` is the per-track transition that
`update_multi_rep_state` applies to each configured track. -/
theorem C5_short_cycle_discarded (cfg : ExerciseConfig) (f : Features)
    (a now : ℚ) (hint : Option String) (l : String) (s : SingleLimbState)
    (hfl : s.state = "FLEXED")
    (hclose : gatedFlexAmount cfg f l
      (get_limb_joint_flex cfg.primary_joint f l).2 < cfg.extended_threshold)
    (hshort : now - pyOrFloat s.rep_start_time now < cfg.min_rep_duration) :
    stepLimb cfg f a now hint l s =
      ({ s with
          state := "EXTENDED"
          rep_start_time := none
          hip_positions := []
          knee_angles := []
          elbow_angles := []
          torso_devs := []
          confidences := []
          last_rep_end_time := some now }, none) := by
  simp only [stepLimb, hfl, String.reduceEq, reduceIte, if_pos hclose, closeRep]
  have hst : (appendSamples f a s).rep_start_time = s.rep_start_time := rfl
  rw [hst, if_pos hshort]
  rfl

/-- Witness for C5: the squat configuration, a mid-cycle FLEXED state that
started at t = 10, and a straightening frame at t = 10 + 1/20 (cycle of
1/20 s, below the 1/5 s minimum). -/
theorem C5_short_cycle_discarded_witness :
    stepLimb (get_exercise_config (some "squat")) fUp 1 (201/20)
        (some "squat") "global" flexedMidCycle =
      ({ flexedMidCycle with
          state := "EXTENDED"
          rep_start_time := none
          hip_positions := []
          knee_angles := []
          elbow_angles := []
          torso_devs := []
          confidences := []
          last_rep_end_time := some (201/20) }, none) :=
  C5_short_cycle_discarded _ fUp 1 (201/20) (some "squat") "global"
    flexedMidCycle rfl
    (by rw [cfg_squat]
        norm_num [gatedFlexAmount, get_limb_joint_flex, fUp])
    (by rw [cfg_squat]
        norm_num [pyOrFloat, flexedMidCycle])

/-- C3 counterexample: with the squat configuration (driver joint "knee"),
a cycle whose frames carry elbow_min_angle_frame readings of 90° and 95°
emits a summary whose elbow_min_angle is 90 — the non-driver field is NOT
held at the fully-extended 180° sentinel. -/
theorem C3_counterexample :
    (get_exercise_config (some "squat")).primary_joint = "knee" ∧
    ((update_multi_rep_state
        (update_multi_rep_state initialMultiRepState fDown 1 (some "squat") 10).1
        fUp 1 (some "squat") 11).2.map RepSummary.elbow_min_angle) = [90] ∧
    (90 : ℚ) ≠ 180 := by
  refine ⟨?_, ?_, by norm_num⟩ <;>
    (simp only [update_multi_rep_state, update_with_config, get_exercise_config,
      EXERCISE_CONFIG, runLimbs, stepLimb, setLimb, initialMultiRepState,
      gatedFlexAmount, get_limb_joint_flex, cooldownActive, enterFlexed,
      appendSamples, closeRep, discardReset, countReset, mkRepSummary,
      pyOrFloat, pyMin, pyMax, pyMean, List.lookup, DEFAULT_CONFIG, Option.getD,
      ne_eq, String.reduceEq, String.reduceBEq, not_false_eq_true,
      not_true_eq_false, reduceIte, reduceCtorEq, Option.some.injEq,
      ite_true, ite_false, fDown, fUp, decide_eq_true_eq, List.map,
      Option.toList]
     try norm_num [List.map]
     try simp)

/-- C3 amended: for every counted FLEXED→EXTENDED completion, the
summary's `knee_min_angle` is the minimum of the accumulated
`knee_min_angle_frame` samples of that cycle (the closing frame's sample
included) and `elbow_min_angle` is the minimum of the accumulated
`elbow_min_angle_frame` samples, for every configuration alike —
independent of which joint is designated as driver; a field equals the
180° sentinel only when all its samples defaulted to 180° (e.g. the
feature key was absent all cycle). -/
theorem C3_min_angles_from_accumulators (cfg : ExerciseConfig) (f : Features)
    (a now : ℚ) (hint : Option String) (l : String) (s : SingleLimbState)
    (hfl : s.state = "FLEXED")
    (hclose : gatedFlexAmount cfg f l
      (get_limb_joint_flex cfg.primary_joint f l).2 < cfg.extended_threshold)
    (hlong : ¬ now - pyOrFloat s.rep_start_time now < cfg.min_rep_duration) :
    ∃ r, (stepLimb cfg f a now hint l s).2 = some r ∧
      r.knee_min_angle = pyMin (s.knee_angles ++ [f.knee_min_angle_frame.getD 180]) ∧
      r.elbow_min_angle = pyMin (s.elbow_angles ++ [f.elbow_min_angle_frame.getD 180]) := by
  refine ⟨mkRepSummary hint l (now - pyOrFloat s.rep_start_time now)
    (appendSamples f a s), ?_, ?_, ?_⟩
  · simp only [stepLimb, hfl, String.reduceEq, reduceIte, if_pos hclose, closeRep]
    have hst : (appendSamples f a s).rep_start_time = s.rep_start_time := rfl
    rw [hst, if_neg hlong]
  · simp [mkRepSummary, appendSamples]
  · simp [mkRepSummary, appendSamples]

/-- Witness for the amended C3: the squat configuration, the mid-cycle
state with elbow sample 90 accumulated, closing at t = 11. -/
theorem C3_min_angles_from_accumulators_witness :
    ∃ r, (stepLimb (get_exercise_config (some "squat")) fUp 1 11
        (some "squat") "global" flexedMidCycle).2 = some r ∧
      r.knee_min_angle =
        pyMin (flexedMidCycle.knee_angles ++ [fUp.knee_min_angle_frame.getD 180]) ∧
      r.elbow_min_angle =
        pyMin (flexedMidCycle.elbow_angles ++ [fUp.elbow_min_angle_frame.getD 180]) :=
  C3_min_angles_from_accumulators _ fUp 1 11 (some "squat") "global"
    flexedMidCycle rfl
    (by rw [cfg_squat]
        norm_num [gatedFlexAmount, get_limb_joint_flex, fUp])
    (by rw [cfg_squat]
        norm_num [pyOrFloat, flexedMidCycle])

theorem closeRep_eq_clamped (cfg : ExerciseConfig) (hint : Option String)
    (l : String) (now : ℚ) (st : SingleLimbState)
    (hmin : 0 < cfg.min_rep_duration) :
    closeRep cfg hint l now st = closeRepClamped cfg hint l now st := by
  simp only [closeRep, closeRepClamped]
  rcases le_or_lt 0 (now - pyOrFloat st.rep_start_time now) with hd | hd
  · rw [max_eq_right hd]
  · rw [if_pos (hd.trans hmin), if_pos (by rw [max_eq_left hd.le]; exact hmin)]

theorem stepLimb_eq_clamped (cfg : ExerciseConfig) (f : Features) (a now : ℚ)
    (hint : Option String) (l : String) (s : SingleLimbState)
    (hmin : 0 < cfg.min_rep_duration) :
    stepLimb cfg f a now hint l s = stepLimbClamped cfg f a now hint l s := by
  have hc : ∀ st, closeRep cfg hint l now st = closeRepClamped cfg hint l now st :=
    fun st => closeRep_eq_clamped cfg hint l now st hmin
  simp only [stepLimb, stepLimbClamped, hc]

theorem runLimbs_eq_clamped (cfg : ExerciseConfig) (f : Features) (a now : ℚ)
    (hint : Option String) (hmin : 0 < cfg.min_rep_duration) :
    ∀ (ls : List String) (ms : MultiRepState),
      runLimbs cfg f a now hint ls ms = runLimbsClamped cfg f a now hint ls ms := by
  intro ls
  induction ls with
  | nil => intro ms; rfl
  | cons l rest ih =>
      intro ms
      simp only [runLimbs, runLimbsClamped,
        stepLimb_eq_clamped cfg f a now hint l _ hmin, ih]

theorem stepLimb_emit_duration (cfg : ExerciseConfig) (f : Features)
    (a now : ℚ) (hint : Option String) (l : String) (s : SingleLimbState)
    (r : RepSummary) (h : (stepLimb cfg f a now hint l s).2 = some r) :
    cfg.min_rep_duration ≤ r.duration_s := by
  simp only [stepLimb] at h
  split at h
  · split at h
    · exact Option.noConfusion h
    · split at h
      · exact Option.noConfusion h
      · exact Option.noConfusion h
  · split at h
    · split at h
      · simp only [closeRep] at h
        split at h
        · exact Option.noConfusion h
        · rename_i hd
          injection h with h
          subst h
          exact not_lt.mp hd
      · exact Option.noConfusion h
    · exact Option.noConfusion h

theorem runLimbs_emit_duration (cfg : ExerciseConfig) (f : Features)
    (a now : ℚ) (hint : Option String) :
    ∀ (ls : List String) (ms : MultiRepState),
      ∀ r ∈ (runLimbs cfg f a now hint ls ms).2,
        cfg.min_rep_duration ≤ r.duration_s := by
  intro ls
  induction ls with
  | nil => intro ms r hr; simp [runLimbs] at hr
  | cons l rest ih =>
      intro ms r hr
      simp only [runLimbs, List.mem_append] at hr
      rcases hr with hr | hr
      · rcases ho : (stepLimb cfg f a now hint l (ms.limb_states l)).2 with _ | r'
        · rw [ho] at hr; simp at hr
        · rw [ho] at hr
          simp only [Option.toList_some, List.mem_singleton] at hr
          subst hr
          exact stepLimb_emit_duration cfg f a now hint l _ r ho
      · exact ih _ r hr

/-- C4: on a FLEXED→EXTENDED transition with the clock gone backward the
update proceeds exactly as the spec's clamp-duration-to-zero variant
prescribes (the two functions agree on every input, because every
configuration the registry can return has a positive `min_rep_duration`,
so a negative — or clamped-to-zero — duration is discarded either way),
and no emitted summary ever carries a negative `duration_s`. -/
theorem C4_duration_clamp (ms : MultiRepState) (f : Features) (a : ℚ)
    (hint : Option String) (now : ℚ) :
    update_multi_rep_state ms f a hint now = update_clamped ms f a hint now ∧
    ∀ r ∈ (update_multi_rep_state ms f a hint now).2, 0 ≤ r.duration_s := by
  obtain ⟨-, hmin, -, -⟩ := goodConfig_get hint
  constructor
  · exact runLimbs_eq_clamped _ f a now hint hmin _ ms
  · intro r hr
    exact le_trans hmin.le
      (runLimbs_emit_duration _ f a now hint _ ms r hr)

/-- Witness for C4: the second call of the concrete squat cycle (the call
that emits `squatRep`). -/
theorem C4_duration_clamp_witness :
    (update_multi_rep_state
        (update_multi_rep_state initialMultiRepState fDown 1 (some "squat") 10).1
        fUp 1 (some "squat") 11 =
      update_clamped
        (update_multi_rep_state initialMultiRepState fDown 1 (some "squat") 10).1
        fUp 1 (some "squat") 11) ∧
    (0 : ℚ) ≤ squatRep.duration_s :=
  ⟨(C4_duration_clamp _ fUp 1 (some "squat") 11).1,
   (C4_duration_clamp
      (update_multi_rep_state initialMultiRepState fDown 1 (some "squat") 10).1
      fUp 1 (some "squat") 11).2 squatRep
    (by simp only [update_multi_rep_state, update_with_config, get_exercise_config,
          EXERCISE_CONFIG, runLimbs, stepLimb, setLimb, initialMultiRepState,
          gatedFlexAmount, get_limb_joint_flex, cooldownActive, enterFlexed,
          appendSamples, closeRep, discardReset, countReset, mkRepSummary,
          pyOrFloat, pyMin, pyMax, pyMean, List.lookup, DEFAULT_CONFIG, Option.getD,
          ne_eq, String.reduceEq, String.reduceBEq, not_false_eq_true,
          not_true_eq_false, reduceIte, reduceCtorEq, Option.some.injEq,
          ite_true, ite_false, fDown, fUp, decide_eq_true_eq, List.map,
          Option.toList, squatRep]
        try norm_num
        try simp)⟩

theorem stepLimb_limb_id (cfg : ExerciseConfig) (f : Features)
    (a now : ℚ) (hint : Option String) (l : String) (s : SingleLimbState)
    (r : RepSummary) (h : (stepLimb cfg f a now hint l s).2 = some r) :
    r.limb_id = l := by
  simp only [stepLimb] at h
  split at h
  · split at h
    · exact Option.noConfusion h
    · split at h
      · exact Option.noConfusion h
      · exact Option.noConfusion h
  · split at h
    · split at h
      · simp only [closeRep] at h
        split at h
        · exact Option.noConfusion h
        · injection h with h
          subst h
          rfl
      · exact Option.noConfusion h
    · exact Option.noConfusion h

theorem runLimbs_map_limb_sublist (cfg : ExerciseConfig) (f : Features)
    (a now : ℚ) (hint : Option String) :
    ∀ (ls : List String) (ms : MultiRepState),
      ((runLimbs cfg f a now hint ls ms).2.map RepSummary.limb_id).Sublist ls := by
  intro ls
  induction ls with
  | nil => intro ms; simp [runLimbs]
  | cons l rest ih =>
      intro ms
      simp only [runLimbs, List.map_append]
      rcases ho : (stepLimb cfg f a now hint l (ms.limb_states l)).2 with _ | r
      · simpa using List.Sublist.cons l (ih _)
      · have hid : r.limb_id = l :=
          stepLimb_limb_id cfg f a now hint l _ r ho
        simpa [hid] using List.Sublist.cons₂ l (ih _)

/-- C9: tracks are evaluated in the order the active configuration
declares them, the returned summaries appear in that same order (their
track identifiers form a sublist of the configured `limbs` list), at most
one summary per track is returned per call (the identifiers are
duplicate-free), and there are at most as many summaries as configured
tracks. -/
theorem C9_order_and_count (ms : MultiRepState) (f : Features) (a : ℚ)
    (hint : Option String) (now : ℚ) :
    ((update_multi_rep_state ms f a hint now).2.map RepSummary.limb_id).Sublist
      (get_exercise_config hint).limbs ∧
    ((update_multi_rep_state ms f a hint now).2.map RepSummary.limb_id).Nodup ∧
    (update_multi_rep_state ms f a hint now).2.length ≤
      (get_exercise_config hint).limbs.length := by
  have hsub := runLimbs_map_limb_sublist (get_exercise_config hint) f a now hint
    (get_exercise_config hint).limbs ms
  refine ⟨hsub, (goodConfig_get hint).1.sublist hsub, ?_⟩
  simpa using hsub.length_le

theorem runLimbs_state (cfg : ExerciseConfig) (f : Features) (a now : ℚ)
    (hint : Option String) (l : String) :
    ∀ (ls : List String) (ms : MultiRepState), ls.Nodup →
      (runLimbs cfg f a now hint ls ms).1.limb_states l =
        if l ∈ ls then (stepLimb cfg f a now hint l (ms.limb_states l)).1
        else ms.limb_states l := by
  intro ls
  induction ls with
  | nil => intro ms _; simp [runLimbs]
  | cons x rest ih =>
      intro ms hnd
      rcases List.nodup_cons.mp hnd with ⟨hx, hrest⟩
      simp only [runLimbs]
      rw [ih _ hrest]
      by_cases hlx : l = x
      · subst hlx
        rw [if_neg hx, if_pos (List.mem_cons_self _ _)]
        simp [setLimb]
      · simp [setLimb, hlx, List.mem_cons]

theorem update_limb_state (i : FrameInput) (ms : MultiRepState) (l : String) :
    (update_multi_rep_state ms i.features i.avg_confidence
        i.exercise_hint i.now).1.limb_states l =
      stepLimbState l i (ms.limb_states l) := by
  unfold update_multi_rep_state update_with_config stepLimbState
  rw [runLimbs_state _ i.features i.avg_confidence i.now i.exercise_hint l _ ms
    (goodConfig_get i.exercise_hint).1]

theorem runTrace_limb_state (l : String) :
    ∀ (inputs : List FrameInput) (ms : MultiRepState),
      (runTrace inputs ms).1.limb_states l =
        limbStateAfter l (ms.limb_states l) inputs := by
  intro inputs
  induction inputs with
  | nil => intro ms; rfl
  | cons i rest ih =>
      intro ms
      simp only [runTrace, limbStateAfter, List.foldl_cons]
      rw [ih, update_limb_state]
      rfl

theorem runLimbs_reps_filter (cfg : ExerciseConfig) (f : Features) (a now : ℚ)
    (hint : Option String) (l : String) :
    ∀ (ls : List String) (ms : MultiRepState), ls.Nodup →
      ((runLimbs cfg f a now hint ls ms).2.filter (fun r => r.limb_id == l)) =
        if l ∈ ls then
          ((stepLimb cfg f a now hint l (ms.limb_states l)).2).toList
        else [] := by
  intro ls
  induction ls with
  | nil => intro ms _; simp [runLimbs]
  | cons x rest ih =>
      intro ms hnd
      rcases List.nodup_cons.mp hnd with ⟨hx, hrest⟩
      simp only [runLimbs, List.filter_append]
      rw [ih _ hrest]
      by_cases hlx : l = x
      · subst hlx
        rw [if_neg hx, if_pos (List.mem_cons_self _ _)]
        rcases ho : (stepLimb cfg f a now hint l (ms.limb_states l)).2 with _ | r
        · simp [setLimb]
        · have hid : r.limb_id = l := stepLimb_limb_id cfg f a now hint l _ r ho
          simp [setLimb, hid]
      · have hfirst :
            (((stepLimb cfg f a now hint x (ms.limb_states x)).2).toList.filter
              (fun r => r.limb_id == l)) = [] := by
          rcases ho : (stepLimb cfg f a now hint x (ms.limb_states x)).2 with _ | r
          · simp
          · have hid : r.limb_id = x := stepLimb_limb_id cfg f a now hint x _ r ho
            simp [hid, hlx, Ne.symm hlx]
        rw [hfirst]
        simp [setLimb, hlx, List.mem_cons]

theorem filter_pair_map (now : ℚ) (l : String) (rs : List RepSummary) :
    ((rs.map (fun r => (now, r))).filter (fun p => p.2.limb_id == l)) =
      ((rs.filter (fun r => r.limb_id == l)).map (fun r => (now, r))) := by
  induction rs with
  | nil => rfl
  | cons r rest ih =>
      by_cases h : r.limb_id = l <;> simp [List.filter_cons, h, ih]

theorem update_reps_filter (i : FrameInput) (ms : MultiRepState) (l : String) :
    (((update_multi_rep_state ms i.features i.avg_confidence
          i.exercise_hint i.now).2.map (fun r => (i.now, r))).filter
        (fun p => p.2.limb_id == l)) =
      (limbEmit l i (ms.limb_states l)).toList := by
  rw [filter_pair_map]
  simp only [update_multi_rep_state, update_with_config, limbEmit]
  rw [runLimbs_reps_filter _ i.features i.avg_confidence i.now i.exercise_hint l _
    ms (goodConfig_get i.exercise_hint).1]
  split
  · rcases ho : (stepLimb (get_exercise_config i.exercise_hint) i.features
      i.avg_confidence i.now i.exercise_hint l (ms.limb_states l)).2 with _ | r <;>
      rfl
  · rfl

theorem runTrace_filter (l : String) :
    ∀ (inputs : List FrameInput) (ms : MultiRepState),
      ((runTrace inputs ms).2.filter (fun p => p.2.limb_id == l)) =
        limbTrace l inputs (ms.limb_states l) := by
  intro inputs
  induction inputs with
  | nil => intro ms; rfl
  | cons i rest ih =>
      intro ms
      simp only [runTrace, limbTrace, List.filter_append]
      rw [update_reps_filter, ih, update_limb_state]

theorem stepLimb_cleared (cfg : ExerciseConfig) (f : Features) (a now : ℚ)
    (hint : Option String) (l : String) (s : SingleLimbState)
    (h : ClearedWhenExtended s) :
    ClearedWhenExtended (stepLimb cfg f a now hint l s).1 := by
  unfold ClearedWhenExtended at h ⊢
  simp only [stepLimb]
  split
  · split
    · exact h
    · split
      · intro hext
        exact absurd hext (by simp [enterFlexed])
      · exact h
  · split
    · split
      · simp only [closeRep]
        split
        · intro _
          simp [discardReset]
        · intro _
          simp [countReset]
      · rename_i hne _ _
        intro hext
        exact absurd hext hne
    · exact h

theorem stepLimbState_cleared (l : String) (i : FrameInput) (s : SingleLimbState)
    (h : ClearedWhenExtended s) : ClearedWhenExtended (stepLimbState l i s) := by
  simp only [stepLimbState]
  split
  · exact stepLimb_cleared _ i.features i.avg_confidence i.now i.exercise_hint l s h
  · exact h

theorem limbStateAfter_cleared (l : String) :
    ∀ (inputs : List FrameInput) (s : SingleLimbState),
      ClearedWhenExtended s → ClearedWhenExtended (limbStateAfter l s inputs) := by
  intro inputs
  induction inputs with
  | nil => intro s h; exact h
  | cons i rest ih =>
      intro s h
      exact ih _ (stepLimbState_cleared l i s h)

/-- C7: for every state reachable from the initial one by any sequence of
`update_multi_rep_state` calls, a track whose phase is EXTENDED has all
five accumulators empty; moreover the EXTENDED→FLEXED entry seeds each
accumulator with exactly the current frame's sample, and every transition
out of FLEXED (counted or not) leaves the track EXTENDED with all five
accumulators cleared. -/
theorem C7_accumulator_invariant (inputs : List FrameInput) (l : String) :
    ClearedWhenExtended ((runTrace inputs initialMultiRepState).1.limb_states l) ∧
    (∀ (cfg : ExerciseConfig) (f : Features) (a now : ℚ) (hint : Option String)
        (lb : String) (s : SingleLimbState),
      s.state = "EXTENDED" →
      cooldownActive cfg now s = false →
      gatedFlexAmount cfg f lb (get_limb_joint_flex cfg.primary_joint f lb).2 >
        cfg.flexed_threshold →
      (stepLimb cfg f a now hint lb s).1 = enterFlexed f a now s ∧
        (enterFlexed f a now s).hip_positions = [f.center_hip_y.getD 0] ∧
        (enterFlexed f a now s).knee_angles = [f.knee_min_angle_frame.getD 180] ∧
        (enterFlexed f a now s).elbow_angles = [f.elbow_min_angle_frame.getD 180] ∧
        (enterFlexed f a now s).torso_devs = [f.torso_dev_frame.getD 0] ∧
        (enterFlexed f a now s).confidences = [a]) ∧
    (∀ (cfg : ExerciseConfig) (f : Features) (a now : ℚ) (hint : Option String)
        (lb : String) (s : SingleLimbState),
      s.state = "FLEXED" →
      gatedFlexAmount cfg f lb (get_limb_joint_flex cfg.primary_joint f lb).2 <
        cfg.extended_threshold →
      (stepLimb cfg f a now hint lb s).1.state = "EXTENDED" ∧
        (stepLimb cfg f a now hint lb s).1.hip_positions = [] ∧
        (stepLimb cfg f a now hint lb s).1.knee_angles = [] ∧
        (stepLimb cfg f a now hint lb s).1.elbow_angles = [] ∧
        (stepLimb cfg f a now hint lb s).1.torso_devs = [] ∧
        (stepLimb cfg f a now hint lb s).1.confidences = []) := by
  refine ⟨?_, ?_, ?_⟩
  · rw [runTrace_limb_state]
    exact limbStateAfter_cleared l inputs _ (by intro _; simp [initialMultiRepState])
  · intro cfg f a now hint lb s hext hcool hflex
    refine ⟨?_, rfl, rfl, rfl, rfl, rfl⟩
    simp only [stepLimb, hext, String.reduceEq, reduceIte, hcool,
      Bool.false_eq_true, if_false, if_pos hflex]
  · intro cfg f a now hint lb s hfl hclose
    have hstep : stepLimb cfg f a now hint lb s =
        closeRep cfg hint lb now (appendSamples f a s) := by
      simp only [stepLimb, hfl, String.reduceEq, reduceIte, if_pos hclose]
    rw [hstep]
    simp only [closeRep]
    split
    · exact ⟨rfl, rfl, rfl, rfl, rfl, rfl⟩
    · exact ⟨rfl, rfl, rfl, rfl, rfl, rfl⟩

/-- Witness for C7: the concrete squat trace for the reachable-state part,
the fresh-track squat entry frame for the seeding part, and the mid-cycle
state with the straightening frame for the clearing part. -/
theorem C7_accumulator_invariant_witness :
    ClearedWhenExtended
      ((runTrace squatTrace initialMultiRepState).1.limb_states "global") ∧
    ((stepLimb (get_exercise_config (some "squat")) fDown 1 10 (some "squat")
        "global" {}).1 = enterFlexed fDown 1 10 {} ∧
      (enterFlexed fDown 1 10 ({} : SingleLimbState)).hip_positions =
        [fDown.center_hip_y.getD 0] ∧
      (enterFlexed fDown 1 10 ({} : SingleLimbState)).knee_angles =
        [fDown.knee_min_angle_frame.getD 180] ∧
      (enterFlexed fDown 1 10 ({} : SingleLimbState)).elbow_angles =
        [fDown.elbow_min_angle_frame.getD 180] ∧
      (enterFlexed fDown 1 10 ({} : SingleLimbState)).torso_devs =
        [fDown.torso_dev_frame.getD 0] ∧
      (enterFlexed fDown 1 10 ({} : SingleLimbState)).confidences = [1]) ∧
    ((stepLimb (get_exercise_config (some "squat")) fUp 1 11 (some "squat")
        "global" flexedMidCycle).1.state = "EXTENDED" ∧
      (stepLimb (get_exercise_config (some "squat")) fUp 1 11 (some "squat")
        "global" flexedMidCycle).1.hip_positions = [] ∧
      (stepLimb (get_exercise_config (some "squat")) fUp 1 11 (some "squat")
        "global" flexedMidCycle).1.knee_angles = [] ∧
      (stepLimb (get_exercise_config (some "squat")) fUp 1 11 (some "squat")
        "global" flexedMidCycle).1.elbow_angles = [] ∧
      (stepLimb (get_exercise_config (some "squat")) fUp 1 11 (some "squat")
        "global" flexedMidCycle).1.torso_devs = [] ∧
      (stepLimb (get_exercise_config (some "squat")) fUp 1 11 (some "squat")
        "global" flexedMidCycle).1.confidences = []) :=
  ⟨(C7_accumulator_invariant squatTrace "global").1,
   (C7_accumulator_invariant squatTrace "global").2.1
     (get_exercise_config (some "squat")) fDown 1 10 (some "squat") "global" {}
     rfl rfl
     (by rw [cfg_squat]
         norm_num [gatedFlexAmount, get_limb_joint_flex, fDown]),
   (C7_accumulator_invariant squatTrace "global").2.2
     (get_exercise_config (some "squat")) fUp 1 11 (some "squat") "global"
     flexedMidCycle rfl
     (by rw [cfg_squat]
         norm_num [gatedFlexAmount, get_limb_joint_flex, fUp])⟩

theorem RestInv.mono {d : ℚ} {le : Option ℚ} {lb lb₂ : ℚ} {s : SingleLimbState}
    (h : RestInv d le lb s) (hlb : lb ≤ lb₂) : RestInv d le lb₂ s :=
  ⟨h.1, fun hfl e he => (h.2 hfl e he).trans hlb⟩

theorem restInv_step (l : String) (i : FrameInput) (d : ℚ) (hd : 0 ≤ d)
    (hdmin : d = (get_exercise_config i.exercise_hint).min_rest_time)
    (le : Option ℚ) (lb : ℚ) (s : SingleLimbState)
    (hlb : lb ≤ i.now) (hinv : RestInv d le lb s) :
    (limbEmit l i s = none → RestInv d le i.now (stepLimbState l i s)) ∧
    (∀ t r, limbEmit l i s = some (t, r) →
      t = i.now ∧ (∀ e, le = some e → e + d ≤ t) ∧
      RestInv d (some i.now) i.now (stepLimbState l i s)) := by
  simp only [limbEmit, stepLimbState]
  split
  case isFalse =>
    exact ⟨fun _ => hinv.mono hlb, fun t r h => Option.noConfusion h⟩
  case isTrue =>
    simp only [stepLimb]
    split
    · -- EXTENDED
      split
      · -- cooldown active: unchanged
        exact ⟨fun _ => hinv.mono hlb, fun t r h => Option.noConfusion h⟩
      · split
        · -- enter FLEXED
          rename_i hext hcool hflex
          refine ⟨fun _ => ⟨hinv.1, ?_⟩, fun t r h => Option.noConfusion h⟩
          intro _ e he
          obtain ⟨t0, ht0, het0⟩ := hinv.1 e he
          have hncd : ¬ (i.now - t0 <
              (get_exercise_config i.exercise_hint).min_rest_time) := by
            simp only [cooldownActive, ht0, decide_eq_true_eq] at hcool
            exact hcool
          rw [hdmin]
          have := not_lt.mp hncd
          linarith
        · -- below flexed threshold: unchanged
          exact ⟨fun _ => hinv.mono hlb, fun t r h => Option.noConfusion h⟩
    · split
      · -- FLEXED
        rename_i hnext hfl
        split
        · -- closing frame
          simp only [closeRep]
          split
          · -- short cycle: discard, no emission
            refine ⟨fun _ => ⟨?_, ?_⟩, fun t r h => Option.noConfusion h⟩
            · intro e he
              refine ⟨i.now, rfl, ?_⟩
              have := hinv.2 hfl e he
              linarith
            · intro hfl'
              simp [discardReset] at hfl'
          · -- counted rep: emission at i.now
            constructor
            · intro h
              exact Option.noConfusion h
            · intro t r h
              injection h with h
              injection h with h1 h2
              subst h1
              refine ⟨rfl, ?_, ?_, ?_⟩
              · intro e he
                exact (hinv.2 hfl e he).trans hlb
              · intro e he
                injection he with he
                exact ⟨i.now, rfl, le_of_eq he.symm⟩
              · intro hfl'
                simp [countReset] at hfl'
        · -- staying flexed: accumulate only
          exact ⟨fun _ => hinv.mono hlb, fun t r h => Option.noConfusion h⟩
      · -- unreachable phase string: unchanged
        exact ⟨fun _ => hinv.mono hlb, fun t r h => Option.noConfusion h⟩

theorem limbTrace_sep (hint : Option String) (l : String) (d : ℚ) (hd : 0 ≤ d)
    (hdmin : d = (get_exercise_config hint).min_rest_time) :
    ∀ (inputs : List FrameInput) (s : SingleLimbState) (le : Option ℚ) (lb : ℚ),
      (∀ i ∈ inputs, i.exercise_hint = hint) →
      List.Chain (· ≤ ·) lb (inputs.map FrameInput.now) →
      RestInv d le lb s →
      (∀ e, le = some e → ∀ p ∈ limbTrace l inputs s, e + d ≤ p.1) ∧
      List.Pairwise (fun t₁ t₂ => t₁ + d ≤ t₂)
        ((limbTrace l inputs s).map Prod.fst) := by
  intro inputs
  induction inputs with
  | nil =>
      intro s le lb _ _ _
      exact ⟨fun e _ p hp => absurd hp (List.not_mem_nil p), List.Pairwise.nil⟩
  | cons i rest ih =>
      intro s le lb hh hchain hinv
      have hhi : i.exercise_hint = hint := hh i (List.mem_cons_self _ _)
      have hhrest : ∀ j ∈ rest, j.exercise_hint = hint :=
        fun j hj => hh j (List.mem_cons_of_mem _ hj)
      rw [List.map_cons] at hchain
      obtain ⟨hlb, hchain'⟩ := List.chain_cons.mp hchain
      have hstep := restInv_step l i d hd (by rw [hhi]; exact hdmin)
        le lb s hlb hinv
      rcases ho : limbEmit l i s with _ | p
      · -- no emission on this call
        have hinv' := hstep.1 ho
        have hrec := ih (stepLimbState l i s) le i.now hhrest hchain' hinv'
        simp only [limbTrace, ho, Option.toList_none, List.nil_append]
        exact hrec
      · -- emission (t, r) on this call
        rcases p with ⟨t, r⟩
        obtain ⟨ht, hsep, hinv'⟩ := hstep.2 t r ho
        subst ht
        have hrec := ih (stepLimbState l i s) (some i.now) i.now hhrest hchain' hinv'
        have hlater : ∀ p ∈ limbTrace l rest (stepLimbState l i s), i.now + d ≤ p.1 :=
          fun p hp => hrec.1 i.now rfl p hp
        simp only [limbTrace, ho, Option.toList_some, List.singleton_append,
          List.map_cons, List.pairwise_cons]
        refine ⟨?_, ?_, hrec.2⟩
        · intro e he p hp
          rcases List.mem_cons.mp hp with rfl | hp
          · exact hsep e he
          · have := hlater p hp
            have := hsep e he
            linarith
        · intro t₂ ht₂
          obtain ⟨q, hq, hq2⟩ := List.mem_map.mp ht₂
          rw [← hq2]
          exact hlater q hq

/-- C6: over any sequence of calls with a fixed exercise hint and
non-decreasing timestamps, the emission times of the summaries produced on
any one track are pairwise separated by at least that configuration's
`min_rest_time` (each summary's end timestamp is the timestamp of the call
that emitted it, which is also the `last_rep_end_time` it records). -/
theorem C6_min_rest_separation (hint : Option String) (inputs : List FrameInput)
    (l : String)
    (hh : ∀ i ∈ inputs, i.exercise_hint = hint)
    (hmono : List.Chain' (· ≤ ·) (inputs.map FrameInput.now)) :
    List.Pairwise
      (fun t₁ t₂ => t₁ + (get_exercise_config hint).min_rest_time ≤ t₂)
      (((runTrace inputs initialMultiRepState).2.filter
          (fun p => p.2.limb_id == l)).map Prod.fst) := by
  rw [runTrace_filter]
  have hd : (0 : ℚ) ≤ (get_exercise_config hint).min_rest_time :=
    (goodConfig_get hint).2.2.1.le
  have hinit : RestInv (get_exercise_config hint).min_rest_time none
      (match inputs with | [] => 0 | i :: _ => i.now)
      (initialMultiRepState.limb_states l) :=
    ⟨fun e he => Option.noConfusion he, fun _ e he => Option.noConfusion he⟩
  rcases inputs with _ | ⟨i, rest⟩
  · simp [limbTrace]
  · have hchain : List.Chain (· ≤ ·) i.now ((i :: rest).map FrameInput.now) := by
      rw [List.map_cons]
      exact List.Chain.cons le_rfl (by simpa using hmono)
    exact (limbTrace_sep hint l _ hd rfl (i :: rest)
      (initialMultiRepState.limb_states l) none i.now hh hchain hinit).2

/-- Witness for C6 at the concrete two-cycle squat trace (frames at
t = 10, 11, 12, 13; summaries are emitted at t = 11 and t = 13, separated
by 2 ≥ min_rest_time = 2/25). -/
theorem C6_min_rest_separation_witness :
    List.Pairwise
      (fun t₁ t₂ => t₁ + (get_exercise_config (some "squat")).min_rest_time ≤ t₂)
      (((runTrace squatTrace initialMultiRepState).2.filter
          (fun p => p.2.limb_id == "global")).map Prod.fst) :=
  C6_min_rest_separation (some "squat") squatTrace "global"
    (by decide)
    (by norm_num [squatTrace, List.chain'_cons])

theorem stepLimb_flexed_cases (cfg : ExerciseConfig) (f : Features) (a now : ℚ)
    (hint : Option String) (l : String) (s : SingleLimbState)
    (h : (stepLimb cfg f a now hint l s).1.state = "FLEXED") :
    (s.state = "EXTENDED" ∧
      (stepLimb cfg f a now hint l s).1.hip_positions = [f.center_hip_y.getD 0]) ∨
    (s.state = "FLEXED" ∧
      (stepLimb cfg f a now hint l s).1.hip_positions =
        s.hip_positions ++ [f.center_hip_y.getD 0]) := by
  simp only [stepLimb] at h ⊢
  split at h
  · rename_i hext
    split at h
    · exact absurd (hext ▸ h) (by simp)
    · split at h
      · rename_i hcool hflex
        left
        refine ⟨hext, ?_⟩
        simp only [hext, String.reduceEq, reduceIte, hcool,
          Bool.false_eq_true, if_false, if_pos hflex]
        rfl
      · exact absurd (hext ▸ h) (by simp)
  · split at h
    · rename_i hnext hfl
      split at h
      · -- closing: result is EXTENDED in both closeRep branches
        rename_i hclose
        exfalso
        simp only [closeRep] at h
        split at h
        · simp [discardReset] at h
        · simp [countReset] at h
      · rename_i hclose
        right
        refine ⟨hfl, ?_⟩
        simp only [hfl, String.reduceEq, reduceIte, if_neg hclose]
        rfl
    · rename_i hnext hnfl
      exact absurd h hnfl

theorem limbEmit_hip_range (l : String) (i : FrameInput) (s : SingleLimbState)
    (t : ℚ) (r : RepSummary) (h : limbEmit l i s = some (t, r)) :
    l ∈ (get_exercise_config i.exercise_hint).limbs ∧
    s.state = "FLEXED" ∧
    r.hip_vertical_range =
      pyMax (s.hip_positions ++ [hipOf i]) -
        pyMin (s.hip_positions ++ [hipOf i]) := by
  simp only [limbEmit] at h
  split at h
  case isFalse => exact Option.noConfusion h
  case isTrue hmem =>
  refine ⟨hmem, ?_⟩
  simp only [stepLimb] at h
  split at h
  · split at h
    · exact Option.noConfusion h
    · split at h
      · exact Option.noConfusion h
      · exact Option.noConfusion h
  · rename_i hnext
    split at h
    · rename_i hfl
      refine ⟨hfl, ?_⟩
      split at h
      · simp only [closeRep] at h
        split at h
        · exact Option.noConfusion h
        · simp only [Option.map_some] at h
          injection h with h
          injection h with h1 h2
          subst h2
          simp [mkRepSummary, appendSamples, hipOf]
      · exact Option.noConfusion h
    · exact Option.noConfusion h

theorem limbTrace_mem (l : String) :
    ∀ (inputs : List FrameInput) (s : SingleLimbState) (p : ℚ × RepSummary),
      p ∈ limbTrace l inputs s →
      ∃ pre i post, inputs = pre ++ i :: post ∧
        limbEmit l i (limbStateAfter l s pre) = some p := by
  intro inputs
  induction inputs with
  | nil => intro s p hp; exact absurd hp (List.not_mem_nil p)
  | cons i rest ih =>
      intro s p hp
      simp only [limbTrace, List.mem_append] at hp
      rcases hp with hp | hp
      · refine ⟨[], i, rest, rfl, ?_⟩
        rcases ho : limbEmit l i s with _ | q
        · rw [ho] at hp; simp at hp
        · rw [ho] at hp
          simp only [Option.toList_some, List.mem_singleton] at hp
          subst hp
          exact ho
      · obtain ⟨pre, j, post, hre, hemit⟩ := ih (stepLimbState l i s) p hp
        exact ⟨i :: pre, j, post, by rw [List.cons_append, hre], hemit⟩

theorem limbStateAfter_flexed_segment (hint : Option String) (l : String)
    (hmem : l ∈ (get_exercise_config hint).limbs) :
    ∀ (pre : List FrameInput),
      (∀ j ∈ pre, j.exercise_hint = hint) →
      (limbStateAfter l {} pre).state = "FLEXED" →
      ∃ k, k < pre.length ∧
        (limbStateAfter l {} (pre.take k)).state = "EXTENDED" ∧
        (∀ m, k < m → m ≤ pre.length →
          (limbStateAfter l {} (pre.take m)).state = "FLEXED") ∧
        (limbStateAfter l {} pre).hip_positions = (pre.drop k).map hipOf := by
  intro pre
  induction pre using List.reverseRecOn with
  | nil =>
      intro _ h
      simp only [limbStateAfter, List.foldl_nil] at h
      exact absurd h (by decide)
  | append_singleton pre i ih =>
      intro hh h
      have hhpre : ∀ j ∈ pre, j.exercise_hint = hint :=
        fun j hj => hh j (List.mem_append_left _ hj)
      have hhi : i.exercise_hint = hint := hh i (by simp)
      have hsnoc : limbStateAfter l {} (pre ++ [i]) =
          stepLimbState l i (limbStateAfter l {} pre) := by
        simp [limbStateAfter, List.foldl_append]
      have hstep : stepLimbState l i (limbStateAfter l {} pre) =
          (stepLimb (get_exercise_config i.exercise_hint) i.features
            i.avg_confidence i.now i.exercise_hint l
            (limbStateAfter l {} pre)).1 := by
        simp only [stepLimbState]
        rw [if_pos (by rw [hhi]; exact hmem)]
      rw [hsnoc, hstep] at h
      rcases stepLimb_flexed_cases _ i.features i.avg_confidence i.now
        i.exercise_hint l _ h with ⟨hext, hip⟩ | ⟨hfl, hip⟩
      · refine ⟨pre.length, by simp, ?_, ?_, ?_⟩
        · rw [List.take_append_of_le_length le_rfl, List.take_length]
          exact hext
        · intro m hm1 hm2
          have hm : m = pre.length + 1 := by
            simp only [List.length_append, List.length_singleton] at hm2
            omega
          subst hm
          rw [List.take_of_length_le (by simp), hsnoc, hstep]
          exact h
        · rw [hsnoc, hstep, List.drop_append_of_le_length le_rfl, List.drop_length]
          simpa [hipOf] using hip
      · obtain ⟨k, hk, hkext, hkfl, hkhip⟩ := ih hhpre hfl
        refine ⟨k, ?_, ?_, ?_, ?_⟩
        · simp only [List.length_append, List.length_singleton]
          omega
        · rw [List.take_append_of_le_length hk.le]
          exact hkext
        · intro m hm1 hm2
          rcases Nat.lt_or_ge m (pre.length + 1) with hm | hm
          · have hmle : m ≤ pre.length := by omega
            rw [List.take_append_of_le_length hmle]
            exact hkfl m hm1 hmle
          · have hmeq : m = pre.length + 1 := by
              simp only [List.length_append, List.length_singleton] at hm2
              omega
            subst hmeq
            rw [List.take_of_length_le (by simp), hsnoc, hstep]
            exact h
        · rw [hsnoc, hstep, List.drop_append_of_le_length hk.le, List.map_append,
            hip, hkhip]
          simp [hipOf]

/-- C8: every repetition summary emitted on a track (over any sequence of
calls with a fixed exercise hint) computes `hip_vertical_range` as max
minus min over exactly the hip-height samples of the frames of its own
cycle: there is an entry index k with the track EXTENDED before frame k
and FLEXED from frame k up to the emitting frame i, and the range is
taken over precisely the contiguous samples of frames k .. i (entry
frame, intermediate frames, and the ending frame — never a sample from a
prior or subsequent cycle). -/
theorem C8_hip_range_cycle_samples (hint : Option String)
    (inputs : List FrameInput) (l : String)
    (hh : ∀ j ∈ inputs, j.exercise_hint = hint)
    (p : ℚ × RepSummary)
    (hp : p ∈ (runTrace inputs initialMultiRepState).2.filter
        (fun q => q.2.limb_id == l)) :
    ∃ (pre : List FrameInput) (i : FrameInput) (post : List FrameInput) (k : ℕ),
      inputs = pre ++ i :: post ∧
      limbEmit l i (limbStateAfter l {} pre) = some p ∧
      k ≤ pre.length ∧
      (limbStateAfter l {} (pre.take k)).state = "EXTENDED" ∧
      (∀ m, k < m → m ≤ pre.length →
        (limbStateAfter l {} (pre.take m)).state = "FLEXED") ∧
      p.2.hip_vertical_range =
        pyMax ((pre.drop k ++ [i]).map hipOf) -
          pyMin ((pre.drop k ++ [i]).map hipOf) := by
  rw [runTrace_filter] at hp
  have hinit : initialMultiRepState.limb_states l = ({} : SingleLimbState) := rfl
  rw [hinit] at hp
  obtain ⟨pre, i, post, hre, hemit⟩ := limbTrace_mem l inputs _ p hp
  obtain ⟨hmem, hfl, hrange⟩ := limbEmit_hip_range l i _ p.1 p.2 hemit
  subst hre
  have hhpre : ∀ j ∈ pre, j.exercise_hint = hint :=
    fun j hj => hh j (List.mem_append_left _ hj)
  have hhi : i.exercise_hint = hint := hh i (by simp)
  obtain ⟨k, hk, hkext, hkfl, hkhip⟩ :=
    limbStateAfter_flexed_segment hint l (by rw [← hhi]; exact hmem) pre hhpre hfl
  refine ⟨pre, i, post, k, rfl, hemit, hk.le, hkext, hkfl, ?_⟩
  rw [hrange, hkhip, List.map_append]
  simp [hipOf]

/-- Witness for C8: the single squat cycle (down at t=10, up at t=11)
emits the summary `squatRep` at time 11 on the "global" track. -/
theorem C8_hip_range_cycle_samples_witness :
    ∃ (pre : List FrameInput) (i : FrameInput) (post : List FrameInput) (k : ℕ),
      squatCycle = pre ++ i :: post ∧
      limbEmit "global" i (limbStateAfter "global" {} pre) =
        some ((11 : ℚ), squatRep) ∧
      k ≤ pre.length ∧
      (limbStateAfter "global" {} (pre.take k)).state = "EXTENDED" ∧
      (∀ m, k < m → m ≤ pre.length →
        (limbStateAfter "global" {} (pre.take m)).state = "FLEXED") ∧
      ((11 : ℚ), squatRep).2.hip_vertical_range =
        pyMax ((pre.drop k ++ [i]).map hipOf) -
          pyMin ((pre.drop k ++ [i]).map hipOf) :=
  C8_hip_range_cycle_samples (some "squat") squatCycle "global"
    (by decide) ((11 : ℚ), squatRep)
    (by simp only [update_multi_rep_state, update_with_config, get_exercise_config,
          EXERCISE_CONFIG, runLimbs, stepLimb, setLimb, initialMultiRepState,
          gatedFlexAmount, get_limb_joint_flex, cooldownActive, enterFlexed,
          appendSamples, closeRep, discardReset, countReset, mkRepSummary,
          pyOrFloat, pyMin, pyMax, pyMean, List.lookup, DEFAULT_CONFIG, Option.getD,
          ne_eq, String.reduceEq, String.reduceBEq, not_false_eq_true,
          not_true_eq_false, reduceIte, reduceCtorEq, Option.some.injEq,
          ite_true, ite_false, fDown, fUp, decide_eq_true_eq, List.map,
          Option.toList, runTrace, List.filter, squatCycle, squatRep]
        try norm_num
        try simp)

end RepLogic
